import Mathlib

/-!
Shallow embedding of `src/mmacommon/util/imageio.py` (maet3608/mma-common)
and proofs about its claims.

The module under verification converts between raw image bytes, numpy
arrays, base64 text and `data:` URLs.  Pure repository logic is translated
directly; the external libraries it calls are modelled at their interfaces:

* `base64.b64encode` / `base64.b64decode` (Python stdlib, called with the
  default `validate=False`) are modelled down to the byte level, including
  the legacy `binascii` behaviour of discarding characters outside the
  base64 alphabet and raising only on incorrect padding.
* `np.save` / `np.savez_compressed` / `np.load` are modelled by the
  `NpBytes` type: a serialized buffer is either a plain `.npy` stream
  holding one array or an `.npz` archive holding a list of named members.
  Keyword arguments to `np.savez_compressed` become archive members,
  exactly as in the numpy 1.x line this repository pins (`numpy>=1.11`);
  hence `np.savez_compressed(buf, arr, allow_pickle=False)` stores a
  second member named `allow_pickle`.
* PIL image encoding/decoding is kept abstract: functions that call it
  take the encoder/decoder as an explicit argument.
-/

namespace MmaImageio

/-! ## Base64 codec (models Python `base64` as used by `imageio.py`) -/

/-- Value of a base64 alphabet character, `none` for anything else. -/
def b64Val (c : Char) : Option Nat :=
  if 'A' ≤ c ∧ c ≤ 'Z' then some (c.toNat - 65)
  else if 'a' ≤ c ∧ c ≤ 'z' then some (c.toNat - 71)
  else if '0' ≤ c ∧ c ≤ '9' then some (c.toNat + 4)
  else if c = '+' then some 62
  else if c = '/' then some 63
  else none

/-- Character for a 6-bit value. -/
def b64chr (n : Nat) : Char :=
  if n < 26 then Char.ofNat (65 + n)
  else if n < 52 then Char.ofNat (71 + n)
  else if n < 62 then Char.ofNat (n - 4)
  else if n = 62 then '+'
  else '/'

/-- Characters the legacy decoder pays attention to: alphabet or pad. -/
def b64keep (c : Char) : Bool := (b64Val c).isSome || c == '='

/-- Encoding of a byte list, three bytes per four characters, padded. -/
def b64chunks : List Nat → List Char
  | [] => []
  | [x] => [b64chr (x / 4), b64chr (x % 4 * 16), '=', '=']
  | [x, y] => [b64chr (x / 4), b64chr (x % 4 * 16 + y / 16), b64chr (y % 16 * 4), '=']
  | x :: y :: z :: rest =>
    b64chr (x / 4) :: b64chr (x % 4 * 16 + y / 16) ::
      b64chr (y % 16 * 4 + z / 64) :: b64chr (z % 64) :: b64chunks rest

/-- Legacy (`validate=False`) base64 decoding loop: characters outside the
alphabet are skipped; a pad closes a 2- or 3-character group (for a
2-character group only when the next relevant character is another pad);
an unterminated group is an `Incorrect padding` error. -/
def b64core : List Char → List Nat → Except String (List Nat)
  | [], acc => if acc = [] then .ok [] else .error "Incorrect padding"
  | c :: rest, acc =>
    match b64Val c with
    | some v =>
      match acc with
      | [v1, v2, v3] =>
        match b64core rest [] with
        | .error e => .error e
        | .ok tail =>
          .ok ([v1 * 4 + v2 / 16, v2 % 16 * 16 + v3 / 4, v3 % 4 * 64 + v] ++ tail)
      | _ => b64core rest (acc ++ [v])
    | none =>
      if c = '=' then
        match acc with
        | [v1, v2] =>
          match rest.find? b64keep with
          | some d => if d = '=' then .ok [v1 * 4 + v2 / 16] else b64core rest acc
          | none => b64core rest acc
        | [v1, v2, v3] => .ok [v1 * 4 + v2 / 16, v2 % 16 * 16 + v3 / 4]
        | _ => b64core rest acc
      else b64core rest acc

/-- Embeds `base64encode(data)` from `imageio.py`: `base64.b64encode(data).decode('utf-8')`. -/
def base64encode (data : List Nat) : String := ⟨b64chunks data⟩

/-- Embeds `base64decode(data)` from `imageio.py`: `base64.b64decode(data)`. -/
def base64decode (data : String) : Except String (List Nat) := b64core data.data []

/-- Returns `true` exactly on the exception outcome. -/
def isErr {ε α : Type} : Except ε α → Bool
  | .error _ => true
  | .ok _ => false

/-! ## ndarray model -/

/-- Element types that appear in this development. -/
inductive DType
  | uint8 | int32 | int64 | float32 | float64 | boolT
deriving DecidableEq, Repr, Inhabited

/-- A numpy array: element type, shape and (flattened) contents. -/
structure NDArray where
  dtype : DType
  shape : List Nat
  data : List Int
deriving DecidableEq, Repr, Inhabited

/-- Embeds `is_image(ndarray)`: dtype is uint8 and shape is `(h,w)` or `(h,w,3)`. -/
def is_image (a : NDArray) : Bool :=
  (a.dtype == DType.uint8) &&
    (a.shape.length == 2 || (a.shape.length == 3 && a.shape.getD 2 0 == 3))

/-- Result of `np.save`/`np.savez_compressed` into a buffer: a plain `.npy`
stream holding one array, or an `.npz` archive of named members. -/
inductive NpBytes
  | npy (a : NDArray)
  | npz (members : List (String × NDArray))
deriving DecidableEq, Repr

/-- The archive member numpy 1.x creates for the keyword argument
`allow_pickle=False` of `savez_compressed`: a 0-d boolean array. -/
def allowPickleMember : String × NDArray := ("allow_pickle", ⟨DType.boolT, [], [0]⟩)

/-- Embeds `ndarray_to_bytes(ndarray, compress=True)`: `np.save` when `compress`
is true, `np.savez_compressed(buf, ndarray, allow_pickle=False)` otherwise
(the keyword becomes a second archive member). -/
def ndarray_to_bytes (a : NDArray) (compress : Bool := true) : NpBytes :=
  if compress then .npy a else .npz [allowPickleMember, ("arr_0", a)]

/-- Embeds `ndarray_from_bytes(bdata)`: `np.load`, returning the array directly
for `.npy` data, and for `.npz` asserting exactly one member before
returning it. -/
def ndarray_from_bytes (b : NpBytes) : Except String NDArray :=
  match b with
  | .npy a => .ok a
  | .npz ms =>
    if ms.length = 1 then .ok ((ms.getD 0 ("", default)).2)
    else .error "Expect one ndarray in npz file!"

/-! ## Format sniffing and data-URL building -/

/-- The `PREFIX2FMT` table, keyed by the first-two-bytes list.  The Python
dict is keyed by 2-tuples, so any shorter key misses the table. -/
def PREFIX2FMT (p : List Nat) : Option String :=
  if p = [255, 216] then some "jpg"
  else if p = [71, 73] then some "gif"
  else if p = [137, 80] then some "png"
  else if p = [66, 77] then some "bmp"
  else if p = [73, 73] then some "tif"
  else if p = [77, 77] then some "tif"
  else none

/-- Embeds `image_to_data_url(image_bytes, fmt)`. -/
def image_to_data_url (image_bytes : List Nat) (fmt : String) : String :=
  "data:image/" ++ fmt ++ ";base64," ++ base64encode image_bytes

/-- The local `_extension(img)` of `imagefile_to_data_url(path)`: looks up
the first two bytes, raising `ValueError` with the offending byte pair and
the path on a miss. -/
def imageExtension (path : String) (img : List Nat) : Except (List Nat × String) String :=
  match PREFIX2FMT (img.take 2) with
  | some fmt => .ok fmt
  | none => .error (img.take 2, path)

/-- Embeds `imagefile_to_data_url(path)` with the file contents made explicit:
`image_to_data_url(img, _extension(img))`. -/
def imagefile_to_data_url (path : String) (img : List Nat) :
    Except (List Nat × String) String :=
  match imageExtension path img with
  | .ok fmt => .ok (image_to_data_url img fmt)
  | .error e => .error e

/-! ## Data-URL parsing -/

/-- Python `s.split(sep)` for a single-character separator. -/
def splitOnChar (sep : Char) : List Char → List (List Char)
  | [] => [[]]
  | c :: rest =>
    if c = sep then [] :: splitOnChar sep rest
    else
      match splitOnChar sep rest with
      | hd :: tl => (c :: hd) :: tl
      | [] => [[c]]

/-- Python `s.startswith(pre)`, computed on the underlying character
lists. -/
def startsWithL (s pre : String) : Bool := pre.data.isPrefixOf s.data

/-- Python `s.replace('data:', '')`: removes every occurrence, scanning
left to right without overlap. -/
def stripDataColon : List Char → List Char
  | 'd' :: 'a' :: 't' :: 'a' :: ':' :: rest => stripDataColon rest
  | c :: rest => c :: stripDataColon rest
  | [] => []

/-- Embeds `parse_data_url(data_url)`.  Mirrors the Python control flow: the
`data:` head check, `split(',')` unpacked into exactly two parts,
`replace('data:', '')` on the header, `rsplit(';', 1)` (which needs at
least one semicolon and cuts at the last one) and `split('/')` unpacked
into exactly two parts. -/
def parse_data_url (data_url : String) :
    Except String (String × String × String × String) :=
  if startsWithL data_url "data:" then
    let parts := splitOnChar ',' data_url.data
    if parts.length = 2 then
      let hdr := stripDataColon (parts.getD 0 [])
      let dat := parts.getD 1 []
      let sparts := splitOnChar ';' hdr
      if 2 ≤ sparts.length then
        let mediatype := List.intercalate [';'] sparts.dropLast
        let encoding := sparts.getLastD []
        let mparts := splitOnChar '/' mediatype
        if mparts.length = 2 then
          .ok (⟨mparts.getD 0 []⟩, ⟨mparts.getD 1 []⟩, ⟨encoding⟩, ⟨dat⟩)
        else .error ("Data URL not in correct format: " ++ data_url.take 40)
      else .error ("Data URL not in correct format: " ++ data_url.take 40)
    else .error ("Data URL not in correct format: " ++ data_url.take 40)
  else .error ("Not a data URL: " ++ data_url.take 40)

/-! ## Bridge between arrays, images and data URLs -/

/-- Error outcomes of `ndarray_from_data_url` and `extract_data_and_type`.
`unknownType` is raised only by the final `else` branch of
`ndarray_from_data_url`. -/
inductive DataUrlErr
  | valueErr (s : String)
  | b64Err (s : String)
  | loadErr (s : String)
  | unknownType (s : String)
deriving DecidableEq, Repr

/-- Embeds `extract_data_and_type(data_url)`: parse, demand `base64` encoding and
an `image`/`ndarray` datatype, then base64-decode the payload. -/
def extract_data_and_type (data_url : String) :
    Except DataUrlErr (List Nat × String × String) :=
  match parse_data_url data_url with
  | .error e => .error (.valueErr e)
  | .ok (datatype, subtype, encoding, dat) =>
    if encoding == "base64" && (datatype == "image" || datatype == "ndarray") then
      match base64decode dat with
      | .error e => .error (.b64Err e)
      | .ok bs => .ok (bs, datatype, subtype)
    else .error (.valueErr ("Invalid data : " ++ data_url.take 50))

/-- Python `s.upper()` for the ASCII format names used here. -/
def toUpperL (s : String) : String := ⟨s.data.map Char.toUpper⟩

/-- The `formats.get(fmt, fmt.upper())` table of `pil_to_data_url`. -/
def pilFormats (fmt : String) : String :=
  if fmt = "jpg" then "JPEG" else if fmt = "tif" then "TIFF" else toUpperL fmt

/-- Embeds `pil_to_data_url(pil_image, fmt='png')` with PIL's encoder passed in as
`pilSave` (image, PIL format name ↦ encoded bytes). -/
def pil_to_data_url (pilSave : NDArray → String → List Nat) (pil_image : NDArray)
    (fmt : String := "png") : String :=
  image_to_data_url (pilSave pil_image (pilFormats fmt)) fmt

/-- Embeds `ndarray_to_data_url(ndarray)` with the external encoders passed in:
`bytesOf` maps a numpy buffer to its raw bytes, `pilSave` is PIL's image
encoder. -/
def ndarray_to_data_url (bytesOf : NpBytes → List Nat)
    (pilSave : NDArray → String → List Nat) (a : NDArray) : String :=
  if is_image a then pil_to_data_url pilSave a
  else "data:ndarray/npz;base64," ++ base64encode (bytesOf (ndarray_to_bytes a true))

/-- Embeds `ndarray_from_data_url(data_url, dtype=None)` with the external
decoders passed in: `npLoadB` parses raw bytes into a numpy buffer
(`np.load`), `pilOpen` decodes image bytes (`PIL.Image.open` plus
`np.asarray`). -/
def ndarray_from_data_url (npLoadB : List Nat → Except String NpBytes)
    (pilOpen : List Nat → Option DType → Except String NDArray)
    (data_url : String) (dtype : Option DType := none) : Except DataUrlErr NDArray :=
  match extract_data_and_type data_url with
  | .error e => .error e
  | .ok (bdata, datatype, _) =>
    if datatype = "image" then
      match pilOpen bdata dtype with
      | .error e => .error (.loadErr e)
      | .ok a => .ok a
    else if datatype = "ndarray" then
      match npLoadB bdata with
      | .error e => .error (.loadErr e)
      | .ok nb =>
        match ndarray_from_bytes nb with
        | .error e => .error (.loadErr e)
        | .ok a => .ok a
    else .error (.unknownType ("Unknown data type: " ++ data_url.take 30))

/-! ## Helper lemmas -/

theorem getD2_iff_getLast (l : List Nat) (h : l.length = 3) :
    l.getD 2 0 = 3 ↔ l.getLast? = some 3 := by
  match l, h with
  | [x, y, z], _ => simp [List.getD]

/-! ## Claims -/

/-- Claim C1 (code bug demonstration): the byte-codec round trip holds for
`compress=true` (the `.npy` path) but fails for `compress=false`: numpy's
`savez_compressed` turns the `allow_pickle=False` keyword into a second
archive member, so `ndarray_from_bytes` hits its one-member assertion and
raises instead of returning the array. -/
theorem c1_ndarray_bytes_roundtrip :
    (∀ a : NDArray, ndarray_from_bytes (ndarray_to_bytes a true) = .ok a)
    ∧ (∀ a : NDArray,
        ndarray_from_bytes (ndarray_to_bytes a false) =
          .error "Expect one ndarray in npz file!") := by
  constructor <;> intro a <;> rfl

/-- Claim C2 (code bug demonstration): the `compress` flag is inverted.
`ndarray_to_bytes(a, True)` takes the `np.save` branch and produces the
plain fixed-overhead `.npy` stream, while `ndarray_to_bytes(a, False)`
takes the `np.savez_compressed` branch and produces the compressed `.npz`
archive (with the stray `allow_pickle` member) — the opposite of the
docstring "Compression is zip if compress==True". -/
theorem c2_compress_flag_swapped (a : NDArray) :
    ndarray_to_bytes a true = NpBytes.npy a
    ∧ ndarray_to_bytes a false = NpBytes.npz [allowPickleMember, ("arr_0", a)] :=
  ⟨rfl, rfl⟩

/-- Claim C7: `is_image` returns true exactly when the dtype is uint8 and
the rank is 2, or the rank is 3 with final dimension exactly 3; it is a
total Boolean predicate. -/
theorem c7_is_image_iff (a : NDArray) :
    is_image a = true ↔
      (a.dtype = DType.uint8 ∧
        (a.shape.length = 2 ∨ (a.shape.length = 3 ∧ a.shape.getLast? = some 3))) := by
  unfold is_image
  simp only [Bool.and_eq_true, Bool.or_eq_true, beq_iff_eq]
  constructor
  · rintro ⟨hd, h2 | ⟨h3, hl⟩⟩
    · exact ⟨hd, Or.inl h2⟩
    · exact ⟨hd, Or.inr ⟨h3, (getD2_iff_getLast _ h3).1 hl⟩⟩
  · rintro ⟨hd, h2 | ⟨h3, hl⟩⟩
    · exact ⟨hd, Or.inl h2⟩
    · exact ⟨hd, Or.inr ⟨h3, (getD2_iff_getLast _ h3).2 hl⟩⟩

/-- Claim C9: `parse_data_url` removes every occurrence of `data:` from
the header, not only the leading prefix — `replace('data:', '')` strips a
repeated head and interior occurrences alike, so
`data:data:image/png;base64,AA==` parses with datatype `image`. -/
theorem c9_strip_all_data_colon :
    parse_data_url "data:data:image/png;base64,AA==" =
      .ok ("image", "png", "base64", "AA==")
    ∧ (∀ l : List Char,
        stripDataColon ('d' :: 'a' :: 't' :: 'a' :: ':' :: l) = stripDataColon l)
    ∧ parse_data_url "data:image/data:png;base64,AA" =
      .ok ("image", "png", "base64", "AA") :=
  ⟨rfl, fun _ => rfl, rfl⟩

/-- Claim C5: the two-byte magic lookup maps exactly the six listed pairs,
inspects only the first two bytes, and fails — reporting the offending
byte pair and the source path — on any other pair and on inputs shorter
than two bytes, in particular on a blob starting `0x00 0x00`. -/
theorem c5_format_sniffing (path : String) (rest : List Nat) :
    imageExtension path (255 :: 216 :: rest) = .ok "jpg"
    ∧ imageExtension path (71 :: 73 :: rest) = .ok "gif"
    ∧ imageExtension path (137 :: 80 :: rest) = .ok "png"
    ∧ imageExtension path (66 :: 77 :: rest) = .ok "bmp"
    ∧ imageExtension path (73 :: 73 :: rest) = .ok "tif"
    ∧ imageExtension path (77 :: 77 :: rest) = .ok "tif"
    ∧ (∀ img : List Nat, imageExtension path img = imageExtension path (img.take 2))
    ∧ (∀ a b : Nat,
        (a, b) ∉ ([(255, 216), (71, 73), (137, 80), (66, 77), (73, 73), (77, 77)] :
            List (Nat × Nat)) →
        imageExtension path (a :: b :: rest) = .error ([a, b], path))
    ∧ imageExtension path [] = .error ([], path)
    ∧ (∀ a : Nat, imageExtension path [a] = .error ([a], path))
    ∧ imageExtension path (0 :: 0 :: rest) = .error ([0, 0], path) := by
  refine ⟨rfl, rfl, rfl, rfl, rfl, rfl, ?_, ?_, rfl, ?_, rfl⟩
  · intro img
    simp [imageExtension, List.take_take]
  · intro a b h
    simp only [List.mem_cons, List.not_mem_nil, or_false, Prod.mk.injEq, not_or] at h
    obtain ⟨h1, h2, h3, h4, h5, h6⟩ := h
    simp only [imageExtension, PREFIX2FMT, List.take_succ_cons, List.take_zero,
      List.cons.injEq, and_true]
    rw [if_neg, if_neg, if_neg, if_neg, if_neg, if_neg] <;> simp <;> omega
  · intro a
    simp [imageExtension, PREFIX2FMT]

/-- Claim C5 witness: an unknown pair `(0, 1)` is rejected with the pair
and the path. -/
theorem c5_witness : imageExtension "p" [0, 1] = .error ([0, 1], "p") :=
  (c5_format_sniffing "p" []).2.2.2.2.2.2.2.1 0 1 (by decide)

/-- Claim C6: `ndarray_to_data_url` encodes `is_image` arrays as PNG
behind an `image/png` data URL and all other arrays via
`ndarray_to_bytes(·, compress=True)` behind an `ndarray/npz` data URL. -/
theorem c6_dispatch (bytesOf : NpBytes → List Nat)
    (pilSave : NDArray → String → List Nat) (a : NDArray) :
    (is_image a = true →
      ndarray_to_data_url bytesOf pilSave a =
        "data:image/png;base64," ++ base64encode (pilSave a "PNG"))
    ∧ (is_image a = false →
      ndarray_to_data_url bytesOf pilSave a =
        "data:ndarray/npz;base64," ++ base64encode (bytesOf (ndarray_to_bytes a true))) := by
  constructor <;> intro h <;>
    simp [ndarray_to_data_url, pil_to_data_url, image_to_data_url, pilFormats, h,
      show toUpperL "png" = "PNG" from rfl]

/-- Claim C6 witness: both branches at concrete inputs. -/
theorem c6_witness :
    ndarray_to_data_url (fun _ => [0]) (fun _ _ => [1, 2])
        ⟨DType.uint8, [2, 2], [1, 1, 1, 1]⟩ =
      "data:image/png;base64," ++ base64encode [1, 2]
    ∧ ndarray_to_data_url (fun _ => [0]) (fun _ _ => [1, 2])
        ⟨DType.float64, [2], [1, 1]⟩ =
      "data:ndarray/npz;base64," ++
        base64encode ((fun _ => [0] : NpBytes → List Nat)
          (ndarray_to_bytes ⟨DType.float64, [2], [1, 1]⟩ true)) :=
  ⟨(c6_dispatch _ _ _).1 (by decide),
   (c6_dispatch _ _ _).2 (by decide)⟩

theorem splitOnChar_ne_nil (sep : Char) (l : List Char) : splitOnChar sep l ≠ [] := by
  cases l with
  | nil => simp [splitOnChar]
  | cons c rest =>
    unfold splitOnChar
    split
    · simp
    · split <;> simp

theorem splitOnChar_length (sep : Char) (l : List Char) :
    (splitOnChar sep l).length = l.count sep + 1 := by
  induction l with
  | nil => rfl
  | cons c rest ih =>
    unfold splitOnChar
    by_cases hc : c = sep
    · simp [hc, ih, List.count_cons]
    · simp only [if_neg hc]
      rcases hs : splitOnChar sep rest with _ | ⟨hd, tl⟩
      · exact absurd hs (splitOnChar_ne_nil sep rest)
      · rw [hs] at ih
        simp only [List.length_cons] at ih ⊢
        simp [List.count_cons, hc, ih]

theorem extract_error_shape (u : String) (e : DataUrlErr)
    (h : extract_data_and_type u = .error e) :
    (∃ s, e = .valueErr s) ∨ (∃ s, e = .b64Err s) := by
  unfold extract_data_and_type at h
  split at h
  · exact Or.inl ⟨_, by injection h with h'; exact h'.symm⟩
  · split at h
    · split at h
      · exact Or.inr ⟨_, by injection h with h'; exact h'.symm⟩
      · exact absurd h (by simp)
    · exact Or.inl ⟨_, by injection h with h'; exact h'.symm⟩

theorem extract_ok_datatype (u : String) (b : List Nat) (dt st : String)
    (h : extract_data_and_type u = .ok (b, dt, st)) :
    dt = "image" ∨ dt = "ndarray" := by
  unfold extract_data_and_type at h
  split at h
  · exact absurd h (by simp)
  · rename_i datatype subtype encoding dat
    split at h
    · rename_i hcond
      split at h
      · exact absurd h (by simp)
      · injection h with h'
        simp only [Prod.mk.injEq] at h'
        obtain ⟨-, h2, -⟩ := h'
        simp only [Bool.and_eq_true, Bool.or_eq_true, beq_iff_eq] at hcond
        rcases hcond.2 with hi | hn
        · exact Or.inl (h2 ▸ hi)
        · exact Or.inr (h2 ▸ hn)
    · exact absurd h (by simp)

/-- Claim C10: the final `raise ValueError('Unknown data type…')` branch of
`ndarray_from_data_url` is unreachable — `extract_data_and_type` either
fails or returns datatype `image` or `ndarray`, so the result is never the
`unknownType` error, for any external image/array decoders. -/
theorem c10_unknown_branch_unreachable (npLoadB : List Nat → Except String NpBytes)
    (pilOpen : List Nat → Option DType → Except String NDArray)
    (data_url : String) (dtype : Option DType) (s : String) :
    ndarray_from_data_url npLoadB pilOpen data_url dtype ≠
      .error (.unknownType s) := by
  intro hcontra
  unfold ndarray_from_data_url at hcontra
  cases hx : extract_data_and_type data_url with
  | error e =>
    rw [hx] at hcontra
    rcases extract_error_shape _ _ hx with ⟨t, rfl⟩ | ⟨t, rfl⟩ <;> simp at hcontra
  | ok q =>
    obtain ⟨b, dt, st⟩ := q
    rw [hx] at hcontra
    rcases extract_ok_datatype _ _ _ _ hx with rfl | rfl
    · simp only [if_pos rfl] at hcontra
      cases hp : pilOpen b dtype <;> rw [hp] at hcontra <;> simp at hcontra
    · simp only [reduceIte] at hcontra
      cases hn : npLoadB b <;> rw [hn] at hcontra <;> simp at hcontra
      rename_i nb
      cases hf : ndarray_from_bytes nb <;> rw [hf] at hcontra <;> simp at hcontra

/-- Claim C10 witness: the non-result at a concrete data URL and concrete
external decoders. -/
theorem c10_witness :
    ndarray_from_data_url (fun _ => .error "e") (fun _ _ => .error "e")
      "data:ndarray/npz;base64,QQ==" none ≠ .error (.unknownType "x") :=
  c10_unknown_branch_unreachable _ _ _ _ _

/-- Claim C3 counterexample: a header with two semicolons is accepted, not
rejected — `rsplit(';', 1)` only needs at least one semicolon and cuts at
the last one, so `data:image/jpg;x;base64,QUJD` parses successfully with
subtype `jpg;x` instead of failing. -/
theorem c3_counterexample :
    parse_data_url "data:image/jpg;x;base64,QUJD" =
      .ok ("image", "jpg;x", "base64", "QUJD") := rfl

/-- Claim C3 (amended): `parse_data_url` fails whenever the input does not
start with `data:` or its comma count differs from one; the header (after
removing every occurrence of `data:`) must contain at least one semicolon
— not exactly one — with the text before the last semicolon containing
exactly one slash; the three quoted examples behave as claimed, while
extra semicolons are absorbed into the subtype. -/
theorem c3_parse_grammar_amended :
    parse_data_url "data:image/jpg;base64,QUJD" = .ok ("image", "jpg", "base64", "QUJD")
    ∧ isErr (parse_data_url "not-a-data-url") = true
    ∧ isErr (parse_data_url "data:image,QUJD") = true
    ∧ (∀ s : String, startsWithL s "data:" = false → isErr (parse_data_url s) = true)
    ∧ (∀ s : String, s.data.count ',' ≠ 1 → isErr (parse_data_url s) = true)
    ∧ parse_data_url "data:text/plain;x;base64,QQ" = .ok ("text", "plain;x", "base64", "QQ")
    ∧ isErr (parse_data_url "data:imagejpg;base64,QQ") = true := by
  refine ⟨rfl, rfl, rfl, ?_, ?_, rfl, rfl⟩
  · intro s h
    simp [parse_data_url, h, isErr]
  · intro s h
    by_cases hs : startsWithL s "data:"
    · have hlen : (splitOnChar ',' s.data).length ≠ 2 := by
        rw [splitOnChar_length]; omega
      simp [parse_data_url, hs, hlen, isErr]
    · simp [parse_data_url, hs, isErr]

/-- Claim C3 witness: the hypothesis-bearing clauses at concrete inputs —
a string without the `data:` head, and a data URL with two commas. -/
theorem c3_witness :
    isErr (parse_data_url "QUJD") = true
    ∧ isErr (parse_data_url "data:image/png;base64,QU,JD") = true :=
  ⟨c3_parse_grammar_amended.2.2.2.1 "QUJD" (by decide),
   c3_parse_grammar_amended.2.2.2.2.1 "data:image/png;base64,QU,JD" (by decide)⟩

theorem find_filter_keep (l : List Char) :
    (l.filter b64keep).find? b64keep = l.find? b64keep := by
  induction l with
  | nil => rfl
  | cons c rest ih =>
    by_cases h : b64keep c = true
    · rw [List.filter_cons_of_pos h]
      simp only [List.find?, h]
    · have h' : b64keep c = false := by simpa using h
      rw [List.filter_cons_of_neg (by simp [h'])]
      simp only [List.find?, h', ih]

theorem b64core_filter (l : List Char) :
    ∀ acc, b64core (l.filter b64keep) acc = b64core l acc := by
  induction l with
  | nil => intro acc; rfl
  | cons c rest ih =>
    intro acc
    cases hv : b64Val c with
    | some v =>
      have hk : b64keep c = true := by simp [b64keep, hv]
      rw [List.filter_cons_of_pos hk]
      rcases acc with _ | ⟨a1, _ | ⟨a2, _ | ⟨a3, _ | ⟨a4, t⟩⟩⟩⟩ <;>
        simp only [b64core, hv] <;> rw [ih]
    | none =>
      by_cases hc : c = '='
      · subst hc
        have hk : b64keep '=' = true := by simp [b64keep]
        rw [List.filter_cons_of_pos hk]
        rcases acc with _ | ⟨a1, _ | ⟨a2, _ | ⟨a3, _ | ⟨a4, t⟩⟩⟩⟩ <;>
          simp only [b64core, hv, reduceIte] <;>
          (try rw [find_filter_keep]) <;> (try rw [ih])
      · have hk : b64keep c = false := by simp [b64keep, hv, hc]
        have hstep : b64core (c :: rest) acc = b64core rest acc := by
          simp only [b64core, hv, if_neg hc]
        rw [List.filter_cons_of_neg (by simp [hk]), hstep]
        exact ih acc

/-- Claim C4 counterexample: `$` is outside the base64 alphabet, yet
`base64decode "QUJD$"` succeeds (returning the bytes of `ABC`) — Python's
`b64decode` with the default `validate=False` discards such characters
rather than raising. -/
theorem c4_counterexample :
    b64Val '$' = none
    ∧ base64decode "QUJD$" = .ok [65, 66, 67]
    ∧ isErr (base64decode "QUJD$") = false :=
  ⟨rfl, rfl, rfl⟩

/-- Claim C4 (amended): `base64decode` discards every character outside
the base64 alphabet (and pad) before decoding — decoding any string equals
decoding its filtered form, so invalid characters never cause failure —
and it fails with a decode error only for incorrect padding, e.g. when
the surviving characters leave an incomplete group as in `QUJ`. -/
theorem c4_decode_discards_invalid :
    (∀ s : String, base64decode ⟨s.data.filter b64keep⟩ = base64decode s)
    ∧ base64decode "QUJ$D" = .ok [65, 66, 67]
    ∧ base64decode "$$$$" = .ok []
    ∧ base64decode "QUJ" = .error "Incorrect padding" := by
  refine ⟨?_, rfl, rfl, rfl⟩
  intro s
  exact b64core_filter s.data []

theorem b64Val_b64chr : ∀ n, n < 64 → b64Val (b64chr n) = some n := by decide

theorem b64core_step0 {c : Char} {v : Nat} (hv : b64Val c = some v) (rest : List Char) :
    b64core (c :: rest) [] = b64core rest [v] := by
  simp [b64core, hv]

theorem b64core_step1 {c : Char} {v : Nat} (hv : b64Val c = some v) (v1 : Nat)
    (rest : List Char) : b64core (c :: rest) [v1] = b64core rest [v1, v] := by
  simp [b64core, hv]

theorem b64core_step2 {c : Char} {v : Nat} (hv : b64Val c = some v) (v1 v2 : Nat)
    (rest : List Char) : b64core (c :: rest) [v1, v2] = b64core rest [v1, v2, v] := by
  simp [b64core, hv]

theorem b64core_emit {c : Char} {v : Nat} (hv : b64Val c = some v) (v1 v2 v3 : Nat)
    (rest : List Char) :
    b64core (c :: rest) [v1, v2, v3] =
      match b64core rest [] with
      | .error e => .error e
      | .ok tail =>
        .ok ([v1 * 4 + v2 / 16, v2 % 16 * 16 + v3 / 4, v3 % 4 * 64 + v] ++ tail) := by
  simp [b64core, hv]

theorem b64core_pad2 (v1 v2 : Nat) (rest : List Char)
    (hfind : rest.find? b64keep = some '=') :
    b64core ('=' :: rest) [v1, v2] = .ok [v1 * 4 + v2 / 16] := by
  simp [b64core, show b64Val '=' = none from rfl, hfind]

theorem b64core_pad3 (v1 v2 v3 : Nat) (rest : List Char) :
    b64core ('=' :: rest) [v1, v2, v3] = .ok [v1 * 4 + v2 / 16, v2 % 16 * 16 + v3 / 4] := by
  simp [b64core, show b64Val '=' = none from rfl]

theorem b64chunks_decode :
    ∀ (n : Nat) (bs : List Nat), bs.length ≤ n → (∀ b ∈ bs, b < 256) →
      b64core (b64chunks bs) [] = .ok bs := by
  intro n
  induction n with
  | zero =>
    intro bs hl _
    cases bs with
    | nil => rfl
    | cons c rest => simp at hl
  | succ n ih =>
    intro bs hl hb
    match bs with
    | [] => rfl
    | [x] =>
      have hx : x < 256 := hb x (by simp)
      rw [show b64chunks [x] = [b64chr (x / 4), b64chr (x % 4 * 16), '=', '='] from rfl,
        b64core_step0 (b64Val_b64chr _ (by omega)),
        b64core_step1 (b64Val_b64chr _ (by omega)),
        b64core_pad2 _ _ ['='] rfl,
        show x / 4 * 4 + x % 4 * 16 / 16 = x by omega]
    | [x, y] =>
      have hx : x < 256 := hb x (by simp)
      have hy : y < 256 := hb y (by simp)
      rw [show b64chunks [x, y] =
          [b64chr (x / 4), b64chr (x % 4 * 16 + y / 16), b64chr (y % 16 * 4), '='] from rfl,
        b64core_step0 (b64Val_b64chr _ (by omega)),
        b64core_step1 (b64Val_b64chr _ (by omega)),
        b64core_step2 (b64Val_b64chr _ (by omega)),
        b64core_pad3,
        show x / 4 * 4 + (x % 4 * 16 + y / 16) / 16 = x by omega,
        show (x % 4 * 16 + y / 16) % 16 * 16 + y % 16 * 4 / 4 = y by omega]
    | x :: y :: z :: rest =>
      have hx : x < 256 := hb x (by simp)
      have hy : y < 256 := hb y (by simp)
      have hz : z < 256 := hb z (by simp)
      have hrest : b64core (b64chunks rest) [] = .ok rest := by
        refine ih rest ?_ fun b hbm => hb b (by simp [hbm])
        simp only [List.length_cons] at hl
        omega
      rw [show b64chunks (x :: y :: z :: rest) =
          b64chr (x / 4) :: b64chr (x % 4 * 16 + y / 16) ::
            b64chr (y % 16 * 4 + z / 64) :: b64chr (z % 64) :: b64chunks rest from rfl,
        b64core_step0 (b64Val_b64chr _ (by omega)),
        b64core_step1 (b64Val_b64chr _ (by omega)),
        b64core_step2 (b64Val_b64chr _ (by omega)),
        b64core_emit (b64Val_b64chr _ (by omega)),
        hrest]
      show Except.ok _ = _
      rw [show x / 4 * 4 + (x % 4 * 16 + y / 16) / 16 = x by omega,
        show (x % 4 * 16 + y / 16) % 16 * 16 + (y % 16 * 4 + z / 64) / 4 = y by omega,
        show (y % 16 * 4 + z / 64) % 4 * 64 + z % 64 = z by omega,
        List.cons_append, List.cons_append, List.cons_append, List.nil_append]

/-- Claim C8: the base64 codec round-trips — for every byte sequence,
decoding the encoding returns exactly the original bytes; `base64encode`
is a total Lean function, hence deterministic and defined on all byte
sequences. -/
theorem c8_base64_roundtrip (bs : List Nat) (h : ∀ b ∈ bs, b < 256) :
    base64decode (base64encode bs) = .ok bs :=
  b64chunks_decode bs.length bs le_rfl h

/-- Claim C8 witness: the round trip at a concrete byte sequence. -/
theorem c8_witness : base64decode (base64encode [0, 255, 10, 77]) = .ok [0, 255, 10, 77] :=
  c8_base64_roundtrip [0, 255, 10, 77] (by decide)

end MmaImageio
